import Mathlib

/-!
# Verification of the snooker ball tracker core

Shallow embedding of `src/snooker_ball_tracker/ball_tracker/ball_tracker.py`
(class `BallTracker`): colour assignment, identity continuity, the snapshot
comparison predicates and the per-frame `process_image` step.

The repository files `snapshot.py` (class `SnapShot`) and `util.py`
(`dist_between_two_balls`) are not part of the provided sources; the
definitions that stand in for them are modelled from the specification and
carry a doc comment saying so.  Everything else is translated directly from
`ball_tracker.py`.

Python floats are embedded exactly where the code uses them: the only
floating-point values the tracker ever branches on are threshold
comparisons of the normalized distance, which we express over integer
coordinates with denominators cleared (see `dist_le_frac`).
-/

namespace SnookerBallTracker

/-- The fixed enumerated set of ball colours (spec §3, `BALL_COLOURS`). -/
inductive Colour
  | WHITE | RED | YELLOW | GREEN | BROWN | BLUE | PINK | BLACK
deriving DecidableEq, Repr, Fintype

/-- The insertion order of the colour mapping (spec §3 lists the colours in
this order); snapshots and keypoint dictionaries enumerate colours this way. -/
def colourList : List Colour :=
  [Colour.WHITE, Colour.RED, Colour.YELLOW, Colour.GREEN,
   Colour.BROWN, Colour.BLUE, Colour.PINK, Colour.BLACK]

/-- A detected blob: a 2D point plus a scalar size (`cv2.KeyPoint`).
Coordinates and size are embedded as integers; the tracker only ever
compares the normalized distance between two keypoints against a rational
threshold, and that comparison is embedded exactly (`dist_le_frac`). -/
structure KeyPoint where
  x : ℤ
  y : ℤ
  size : ℤ
deriving DecidableEq, Repr

/-- The point of a keypoint (`keypoint.pt` in the code). -/
def KeyPoint.pt (kp : KeyPoint) : ℤ × ℤ := (kp.x, kp.y)

/-- Modelled from the spec: `dist_between_two_balls` (`util.py`, absent from
`src/`) returns the Euclidean distance between the two keypoints' positions
divided by the average of their two sizes (spec §4.1).  The tracker only
compares this distance with nonnegative rational thresholds `n/d`, and for
valid inputs the sizes are positive, so the comparison
`sqrt(dx² + dy²) / ((s₁+s₂)/2) ≤ n/d` is embedded exactly by clearing
denominators and squaring: `4·d²·(dx² + dy²) ≤ n²·(s₁+s₂)²`. -/
def dist_le_frac (a b : KeyPoint) (n d : ℤ) : Bool :=
  decide (4 * d ^ 2 * ((a.x - b.x) ^ 2 + (a.y - b.y) ^ 2) ≤
    n ^ 2 * (a.size + b.size) ^ 2)

/-- The comparison `dist_between_two_balls a b > n/d`, embedded like
`dist_le_frac`; it is its exact complement, as in the source, where
`has_ball_moved` and `has_ball_stopped` compare the same distance value. -/
def dist_gt_frac (a b : KeyPoint) (n d : ℤ) : Bool :=
  decide (n ^ 2 * (a.size + b.size) ^ 2 <
    4 * d ^ 2 * ((a.x - b.x) ^ 2 + (a.y - b.y) ^ 2))

/-- `BallTracker.has_ball_stopped` (ball_tracker.py:390-401):
`dist = dist_between_two_balls(first_ball, second_ball);
return True if dist <= 0.1 else False`. -/
def has_ball_stopped (first_ball second_ball : KeyPoint) : Bool :=
  dist_le_frac first_ball second_ball 1 10

/-- `BallTracker.has_ball_moved` (ball_tracker.py:403-414):
`dist = dist_between_two_balls(first_ball, second_ball);
return True if dist > 0.1 else False`. -/
def has_ball_moved (first_ball second_ball : KeyPoint) : Bool :=
  dist_gt_frac first_ball second_ball 1 10

/-- Modelled from the spec: the designated white-ball reference held by a
snapshot (`snapshot.py`, absent from `src/`): a keypoint together with the
moving/stationary flag (spec §3). -/
structure WhiteBall where
  keypoint : KeyPoint
  is_moving : Bool
deriving DecidableEq, Repr

/-- Modelled from the spec: one colour's entry in a snapshot: a ball count
and the ordered ball list (spec §3; invariant `count = balls.length` is
maintained by construction but the two fields are stored separately, as the
code reads `.count` and `.balls` independently). -/
structure BallColourInfo where
  count : ℕ
  balls : List KeyPoint
deriving DecidableEq, Repr

/-- Modelled from the spec: `SnapShot` (`snapshot.py`, absent from `src/`):
per-colour ball counts and lists, plus a nullable designated white-ball
reference (spec §3).  `colours` is total over the fixed enumerated colour
set; enumeration order of the mapping is `colourList`. -/
structure SnapShot where
  colours : Colour → BallColourInfo
  white : Option WhiteBall

instance : DecidableEq SnapShot := fun a b => by
  cases a; cases b
  exact decidable_of_iff _ (Iff.of_eq (SnapShot.mk.injEq _ _ _ _)).symm

/-- Modelled from the spec: `SnapShot.compare_ball_diff(colour, other)`
returns the decrease in `colour`'s ball count from `self` to `other`
(spec §4.4: "compute the ball-count decrease from `last_shot` to `temp`"). -/
def SnapShot.compare_ball_diff (self : SnapShot) (colour : Colour)
    (other : SnapShot) : ℤ :=
  ((self.colours colour).count : ℤ) - ((other.colours colour).count : ℤ)

/-- `BallTracker.has_shot_started` (ball_tracker.py:346-366), logging and
the white-status notification dropped: nested guards on the white counts,
the presence of both white references, and `has_ball_moved`. -/
def has_shot_started (first_snapshot second_snapshot : SnapShot) : Bool :=
  if 0 < (first_snapshot.colours Colour.WHITE).count then
    if (first_snapshot.colours Colour.WHITE).count =
        (second_snapshot.colours Colour.WHITE).count then
      match first_snapshot.white, second_snapshot.white with
      | some w1, some w2 =>
        if has_ball_moved w1.keypoint w2.keypoint then true else false
      | _, _ => false
    else false
  else false

/-- `BallTracker.has_shot_finished` (ball_tracker.py:368-388), logging and
the white-status notification dropped.  Note the `else: return True` branch:
when the white counts agree and are positive but one of the two white
references is missing, the shot counts as finished. -/
def has_shot_finished (first_snapshot second_snapshot : SnapShot) : Bool :=
  if 0 < (first_snapshot.colours Colour.WHITE).count then
    if (first_snapshot.colours Colour.WHITE).count =
        (second_snapshot.colours Colour.WHITE).count then
      match first_snapshot.white, second_snapshot.white with
      | some w1, some w2 =>
        if has_ball_stopped w1.keypoint w2.keypoint then true else false
      | _, _ => true
    else false
  else false

/-- The keypoint dictionary `Keypoints = Dict[str, List[cv2.KeyPoint]]`
(ball_tracker.py:11), embedded as an insertion-ordered association list. -/
abbrev Keypoints := List (Colour × List KeyPoint)

/-- The inner loop of `BallTracker.update_balls` (ball_tracker.py:124-129)
over one colour's list: replace the first ball within distance `0.3` of
`cur_ball` by `cur_ball` at its list slot, or report no match. -/
def replaceFirstClose (cur_ball : KeyPoint) : List KeyPoint → Option (List KeyPoint)
  | [] => none
  | ball :: rest =>
    if dist_le_frac cur_ball ball 3 10 then some (cur_ball :: rest)
    else (replaceFirstClose cur_ball rest).map (fun l => ball :: l)

/-- The colour loop of `BallTracker.update_balls` (ball_tracker.py:121-131)
for a single observed blob: scan colours in insertion order; once a colour's
list yields a match the remaining colours are skipped (`matched` flag). -/
def updateOneBall (cur_ball : KeyPoint) : Keypoints → Keypoints
  | [] => []
  | (ball_colour, l) :: rest =>
    match replaceFirstClose cur_ball l with
    | some l2 => (ball_colour, l2) :: rest
    | none => (ball_colour, l) :: updateOneBall cur_ball rest

/-- `BallTracker.update_balls` (ball_tracker.py:104-132): for each observed
blob in input order, overwrite the first known ball within distance `0.3`;
the (mutated-in-place) mapping is returned. -/
def update_balls (balls : Keypoints) (cur_balls : List KeyPoint) : Keypoints :=
  cur_balls.foldl (fun b cur_ball => updateOneBall cur_ball b) balls

/-- A colour region contour, consumed as an opaque capability (spec §1):
`test` is the `cv2.pointPolygonTest` oracle for this contour with
`measureDist=False` (`1` strictly inside, `0` on the boundary, `-1`
outside), `area` is the `cv2.contourArea` oracle. -/
structure Contour where
  test : ℤ × ℤ → ℤ
  area : ℤ

/-- `BallTracker.__keypoint_in_contour` (ball_tracker.py:316-327):
`dist = cv2.pointPolygonTest(contour, keypoint.pt, False);
return True if dist == 1 else False`. -/
def keypoint_in_contour (keypoint : KeyPoint) (contour : Contour) : Bool :=
  if contour.test keypoint.pt = 1 then true else false

/-- Python's `max(colour_contours, key=cv2.contourArea)`: the first contour
of maximal area (`foldl` keeps the earlier element on ties). -/
def maxAreaContour (c : Contour) (rest : List Contour) : Contour :=
  rest.foldl (fun best x => if best.area < x.area then x else best) c

/-- `balls[colour].append(keypoint)` on the association list. -/
def appendBall (colour : Colour) (keypoint : KeyPoint) : Keypoints → Keypoints
  | [] => []
  | (c, l) :: rest =>
    if c = colour then (c, l ++ [keypoint]) :: rest
    else (c, l) :: appendBall colour keypoint rest

/-- `BallTracker.__keypoint_is_ball` (ball_tracker.py:284-314): if
`keypoint` lies in one of `colour_contours` (only the biggest contour when
`biggest_contour` is set and there are several), append it to
`balls[colour]` and return `True`; the pair returned here is the Python
return value together with the mutated `balls`. -/
def keypoint_is_ball (colour : Colour) (colour_contours : List Contour)
    (keypoint : KeyPoint) (balls : Keypoints) (biggest_contour : Bool) :
    Bool × Keypoints :=
  if 1 < colour_contours.length ∧ biggest_contour then
    match colour_contours with
    | [] => (false, balls)
    | c :: rest =>
      if keypoint_in_contour keypoint (maxAreaContour c rest) then
        (true, appendBall colour keypoint balls)
      else (false, balls)
  else
    if colour_contours.any (fun contour => keypoint_in_contour keypoint contour) then
      (true, appendBall colour keypoint balls)
    else (false, balls)

/-- The colour-detection configuration and per-frame contour oracle used by
`perform_colour_detection`: `order` is `BALL_COLOURS` sorted by the `ORDER`
setting (ball_tracker.py:270-271), `detect` the per-colour `DETECT` flags,
and `contoursFor` stands for `get_mask_contours_for_colour` on this frame's
HSV representation (an external capability, spec §6). -/
structure ColourDetectionConfig where
  order : List Colour
  detect : Colour → Bool
  contoursFor : Colour → List Contour

/-- `balls = { colour: list() for colour in BALL_COLOURS }`
(ball_tracker.py:252-254). -/
def emptyBalls : Keypoints := colourList.map (fun colour => (colour, []))

/-- The per-keypoint colour scan of `perform_colour_detection`
(ball_tracker.py:275-280): try colours in detection order; a colour is
tried only when its `DETECT` flag is set; stop at the first colour whose
`__keypoint_is_ball` check succeeds. -/
def assignKeypoint (detect : Colour → Bool) (colour_contours : Colour → List Contour)
    (keypoint : KeyPoint) : List Colour → Keypoints → Keypoints
  | [], balls => balls
  | colour :: rest, balls =>
    if detect colour then
      let r := keypoint_is_ball colour (colour_contours colour) keypoint balls false
      if r.1 then r.2 else assignKeypoint detect colour_contours keypoint rest r.2
    else assignKeypoint detect colour_contours keypoint rest balls

/-- `BallTracker.perform_colour_detection` (ball_tracker.py:238-282) with
the blob detector's output passed in as `keypoints`: contours are collected
only for colours with `DETECT` set (ball_tracker.py:264-267), then every
keypoint is assigned to at most one colour. -/
def perform_colour_detection (cfg : ColourDetectionConfig)
    (keypoints : List KeyPoint) : Keypoints :=
  let colour_contours : Colour → List Contour :=
    fun colour => if cfg.detect colour then cfg.contoursFor colour else []
  keypoints.foldl
    (fun balls keypoint => assignKeypoint cfg.detect colour_contours keypoint cfg.order balls)
    emptyBalls

/-- Dictionary lookup `balls[colour]` on the association list: the list
stored for `colour` (empty when the key is absent; `emptyBalls` and
`update_balls` keep every colour present). -/
def listOf (balls : Keypoints) (colour : Colour) : List KeyPoint :=
  match balls.find? (fun p => decide (p.1 = colour)) with
  | some p => p.2
  | none => []

/-- Modelled from the spec: `SnapShot.assign_balls_from_dict` (`snapshot.py`,
absent from `src/`) rebuilds a snapshot from a keypoint dictionary:
per-colour counts equal to the list lengths (spec §3 invariant), ball lists
copied by value, the designated white reference taken from the WHITE list
(cardinality-constrained to at most one, spec §3), with the white moving
flag reset to stationary. -/
def snapshotFromKeypoints (balls : Keypoints) : SnapShot :=
  { colours := fun colour =>
      { count := (listOf balls colour).length, balls := listOf balls colour }
  , white := (listOf balls Colour.WHITE).head?.map
      (fun keypoint => { keypoint := keypoint, is_moving := false }) }

/-- Modelled from the spec: `SnapShot.assign_balls_from_snapshot` overwrites
the snapshot with a deep, never-aliasing copy of the other snapshot's state
(spec §3, §4.4); with value semantics that copy is the other snapshot. -/
def SnapShot.assign_balls_from_snapshot (_self other : SnapShot) : SnapShot :=
  other

/-- ball_tracker.py:230-231: while a shot is in progress, copy the white
moving flag of the temporary snapshot into the current-shot snapshot when
both hold a white reference. -/
def propagateWhiteMoving (cur temp : SnapShot) : SnapShot :=
  match cur.white, temp.white with
  | some w, some wt => { cur with white := some { w with is_moving := wt.is_moving } }
  | _, _ => cur

/-- The pot-detection loop (ball_tracker.py:213-222): starting from
(`ball_potted`, `pot_count`) = (`None`, `0`), fold over the colours of
`last_shot`; every non-white colour whose ball count decreased from
`last_shot` to `temp` overwrites the pair with itself and its decrease. -/
def potLoop (last_shot temp : SnapShot) : Option Colour × ℤ :=
  colourList.foldl
    (fun acc ball_colour =>
      let count := last_shot.compare_ball_diff ball_colour temp
      if ball_colour ≠ Colour.WHITE ∧ 0 < count then (some ball_colour, count)
      else acc)
    (none, 0)

/-- The mutable state of a `BallTracker` instance relevant to frame
processing: the working keypoint dictionary, the three snapshots, the
shot-in-progress flag and the frame counter (ball_tracker.py:31-44). -/
structure TrackerState where
  keypoints : Keypoints
  last_shot : SnapShot
  cur_shot : SnapShot
  temp : SnapShot
  shot_in_progess : Bool
  image_counter : ℕ

/-- `BallTracker.process_image` (ball_tracker.py:134-236), drawing and
logging dropped.  External capabilities enter as arguments: `cfg` bundles
the colour settings with this frame's contour oracle, and `blob_keypoints`
is the blob detector's output on this frame's binary image (both the
detection and the continuity branch call `self.__blob_detector.detect` on
the same binary frame).  Returns the new tracker state together with the
returned (`ball_potted`, `pot_count`) pair. -/
def process_image (cfg : ColourDetectionConfig) (st : TrackerState)
    (blob_keypoints : List KeyPoint) : TrackerState × Option Colour × ℤ :=
  let keypoints :=
    if st.image_counter = 0 ∨ st.image_counter % 5 = 0 then
      perform_colour_detection cfg blob_keypoints
    else
      update_balls st.keypoints blob_keypoints
  let cur0 :=
    if st.image_counter = 0 then snapshotFromKeypoints keypoints else st.cur_shot
  let last0 :=
    if st.image_counter = 0 then snapshotFromKeypoints keypoints else st.last_shot
  if st.image_counter = 0 ∨ st.image_counter % 5 = 0 then
    let temp := snapshotFromKeypoints keypoints
    let shot1 :=
      if st.shot_in_progess then st.shot_in_progess else has_shot_started temp cur0
    let finished := shot1 && has_shot_finished temp cur0
    let pot := if finished then potLoop last0 temp else (none, 0)
    let last1 := if finished then last0.assign_balls_from_snapshot cur0 else last0
    let shot2 := if finished then false else shot1
    let cur1 := if shot1 then propagateWhiteMoving cur0 temp else cur0
    let cur2 := cur1.assign_balls_from_snapshot temp
    ({ keypoints := keypoints, last_shot := last1, cur_shot := cur2, temp := temp,
       shot_in_progess := shot2, image_counter := st.image_counter + 1 },
     pot.1, pot.2)
  else
    ({ st with keypoints := keypoints, image_counter := st.image_counter + 1 },
     none, 0)

/-! ## Concrete instances used by witnesses and counterexamples -/

/-- A keypoint at (100, 100), size 20 (spec §8, scenarios 1-3). -/
def kpA : KeyPoint := ⟨100, 100, 20⟩

/-- A keypoint at (140, 100), size 20 (spec §8, scenario 2). -/
def kpB : KeyPoint := ⟨140, 100, 20⟩

/-- A keypoint at (141, 100), size 20 (spec §8, scenario 3). -/
def kpC : KeyPoint := ⟨141, 100, 20⟩

/-- An empty colour entry. -/
def emptyInfo : BallColourInfo := ⟨0, []⟩

/-- A snapshot with no balls at all. -/
def snapNoWhite : SnapShot := ⟨fun _ => emptyInfo, none⟩

/-- A snapshot holding exactly one white ball at `kp`. -/
def snapWhiteAt (kp : KeyPoint) : SnapShot :=
  ⟨fun c => if c = Colour.WHITE then ⟨1, [kp]⟩ else emptyInfo, some ⟨kp, false⟩⟩

/-- A degenerate snapshot: white count 1 but no designated white reference
(the situation the `else: return True` fallback of `has_shot_finished` is
written for). -/
def snapCountNoRef : SnapShot :=
  ⟨fun c => if c = Colour.WHITE then ⟨1, [kpA]⟩ else emptyInfo, none⟩

/-! ## C1 — the `has_shot_finished` fallback -/

/-- C1 (counterexample): the claim says that with the white ball present in
`current_shot` but white count 0 in `temp`, `has_shot_finished(temp,
current_shot)` returns true regardless of the other fields.  At the
concrete input `temp = snapNoWhite` (white count 0), `current_shot =
snapWhiteAt kpA` (white present), `has_shot_finished` returns false: the
outer `count > 0` guard on `temp` fails before the fallback is reached. -/
theorem C1_counterexample :
    has_shot_finished snapNoWhite (snapWhiteAt kpA) = false := by decide

/-- C1 (amended): when the white counts of `temp` and `current_shot` are
equal and nonzero, and the white-ball reference is present in
`current_shot` but absent in `temp`, `has_shot_finished(temp,
current_shot)` returns true, regardless of ball positions and the other
snapshot fields. -/
theorem C1_theorem (temp cur : SnapShot) (w : WhiteBall)
    (hc : (temp.colours Colour.WHITE).count = (cur.colours Colour.WHITE).count)
    (hpos : 0 < (temp.colours Colour.WHITE).count)
    (htw : temp.white = none) (hcw : cur.white = some w) :
    has_shot_finished temp cur = true := by
  unfold has_shot_finished
  rw [if_pos hpos, if_pos hc, htw, hcw]

/-- C1 (witness): the amended statement evaluated at a concrete input. -/
theorem C1_witness : has_shot_finished snapCountNoRef (snapWhiteAt kpA) = true :=
  C1_theorem snapCountNoRef (snapWhiteAt kpA) ⟨kpA, false⟩ rfl (by decide) rfl rfl

/-! ## C2 — characterization of `has_shot_started` -/

/-- C2: `has_shot_started(temp, current_shot)` returns true if and only if
the white ball reference is present in both snapshots, the white counts are
equal and nonzero, and the normalized distance between the two white-ball
positions is strictly greater than 0.1; in every other case it returns
false. -/
theorem C2_theorem (temp cur : SnapShot) :
    has_shot_started temp cur = true ↔
      ∃ w1 w2, temp.white = some w1 ∧ cur.white = some w2 ∧
        (temp.colours Colour.WHITE).count = (cur.colours Colour.WHITE).count ∧
        0 < (temp.colours Colour.WHITE).count ∧
        dist_gt_frac w1.keypoint w2.keypoint 1 10 = true := by
  by_cases hpos : 0 < (temp.colours Colour.WHITE).count
  · by_cases hc : (temp.colours Colour.WHITE).count = (cur.colours Colour.WHITE).count
    · rcases htw : temp.white with _ | w1 <;> rcases hcw : cur.white with _ | w2 <;>
        simp [has_shot_started, has_ball_moved, hpos, hc, htw, hcw]

    · simp [has_shot_started, hpos, hc]
  · simp [has_shot_started, hpos]

/-- C2 (witness): the characterization evaluated at a concrete input: white
at (140, 100) in `temp` against white at (100, 100) in `current_shot`,
size 20 each, has normalized distance 2 > 0.1, so the shot starts. -/
theorem C2_witness : has_shot_started (snapWhiteAt kpB) (snapWhiteAt kpA) = true :=
  (C2_theorem (snapWhiteAt kpB) (snapWhiteAt kpA)).mpr
    ⟨⟨kpB, false⟩, ⟨kpA, false⟩, rfl, rfl, rfl, by decide, by decide⟩

/-! ## C3 — a white-less `temp` freezes the state machine -/

/-- C3: whenever the white-ball count of `temp` is zero, both
`has_shot_started(temp, current_shot)` and `has_shot_finished(temp,
current_shot)` return false, for any values of all remaining fields of
either snapshot. -/
theorem C3_theorem (temp cur : SnapShot)
    (h : (temp.colours Colour.WHITE).count = 0) :
    has_shot_started temp cur = false ∧ has_shot_finished temp cur = false := by
  unfold has_shot_started has_shot_finished
  rw [h]
  simp

/-- C3 (witness): both predicates evaluated at a concrete white-less `temp`. -/
theorem C3_witness :
    has_shot_started snapNoWhite (snapWhiteAt kpA) = false ∧
      has_shot_finished snapNoWhite (snapWhiteAt kpA) = false :=
  C3_theorem snapNoWhite (snapWhiteAt kpA) rfl

/-! ## C5, C6 — identity continuity (`update_balls`) -/

/-- The first list slot holding a ball within normalized distance 0.3 of
the observed blob (spec §4.3: balls scanned in list order). -/
def firstCloseIdx (cur_ball : KeyPoint) : List KeyPoint → Option ℕ
  | [] => none
  | ball :: rest =>
    if dist_le_frac cur_ball ball 3 10 then some 0
    else (firstCloseIdx cur_ball rest).map (· + 1)

/-- The spec's description of the match for one observed blob (§4.3): the
first (colour position, list slot) pair — colours scanned in insertion
order, balls in list order — whose known ball lies within normalized
distance 0.3 of the observed blob. -/
def specFirstMatch (cur_ball : KeyPoint) : Keypoints → Option (ℕ × ℕ)
  | [] => none
  | (_, l) :: rest =>
    match firstCloseIdx cur_ball l with
    | some j => some (0, j)
    | none => (specFirstMatch cur_ball rest).map (fun p => (p.1 + 1, p.2))

/-- Overwrite the known ball at colour position `i`, list slot `j` with the
observed blob, preserving the colour key and the slot. -/
def overwriteAt (cur_ball : KeyPoint) (balls : Keypoints) (i j : ℕ) : Keypoints :=
  match balls[i]? with
  | some (c, l) => balls.set i (c, l.set j cur_ball)
  | none => balls

/-- One observed blob processed as the spec words it (§4.3): overwrite, at
its slot, the first known ball within the threshold; leave the mapping
unchanged when no known ball is within the threshold. -/
def spec_update_one (cur_ball : KeyPoint) (balls : Keypoints) : Keypoints :=
  match specFirstMatch cur_ball balls with
  | some (i, j) => overwriteAt cur_ball balls i j
  | none => balls

lemma replaceFirstClose_eq (cur_ball : KeyPoint) (l : List KeyPoint) :
    replaceFirstClose cur_ball l =
      (firstCloseIdx cur_ball l).map (fun j => l.set j cur_ball) := by
  induction l with
  | nil => rfl
  | cons b bs ih =>
    unfold replaceFirstClose firstCloseIdx
    by_cases h : dist_le_frac cur_ball b 3 10
    · simp [h]
    · cases hj : firstCloseIdx cur_ball bs with
      | none => simp [h, hj, ih]
      | some j => simp [h, hj, ih, List.set]

lemma overwriteAt_cons (cur_ball : KeyPoint) (p : Colour × List KeyPoint)
    (balls : Keypoints) (i j : ℕ) :
    overwriteAt cur_ball (p :: balls) (i + 1) j =
      p :: overwriteAt cur_ball balls i j := by
  unfold overwriteAt
  cases h : balls[i]? with
  | none => simp [h]
  | some q =>
    obtain ⟨c, l⟩ := q
    simp [h, List.set]

lemma updateOneBall_eq_spec (cur_ball : KeyPoint) (balls : Keypoints) :
    updateOneBall cur_ball balls = spec_update_one cur_ball balls := by
  induction balls with
  | nil => rfl
  | cons p rest ih =>
    obtain ⟨c, l⟩ := p
    unfold updateOneBall spec_update_one specFirstMatch
    rw [replaceFirstClose_eq]
    cases hj : firstCloseIdx cur_ball l with
    | some j => simp [hj, overwriteAt, List.set]
    | none =>
      cases hm : specFirstMatch cur_ball rest with
      | none => simp [hj, hm, ih, spec_update_one]
      | some pij =>
        obtain ⟨i, j⟩ := pij
        simp [hj, hm, ih, spec_update_one, overwriteAt_cons]

/-- C5: `update_balls` processes observed blobs in input order; each
observed blob overwrites, at the same list slot, the first known ball —
scanning the known mapping's colours in insertion order and each colour's
balls in list order — whose normalized distance to the blob is at most
0.3; an observed blob with no known ball within the threshold causes no
change; the updated mapping is the function's return value. -/
theorem C5_theorem (balls : Keypoints) (cur_balls : List KeyPoint) :
    update_balls balls cur_balls =
      cur_balls.foldl (fun b cur_ball => spec_update_one cur_ball b) balls := by
  unfold update_balls
  induction cur_balls generalizing balls with
  | nil => rfl
  | cons x xs ih => simp only [List.foldl_cons, updateOneBall_eq_spec, ih]

/-- The per-colour shape of a keypoint mapping: the colour keys in order,
each with its ball list's length. -/
def shapeOf (balls : Keypoints) : List (Colour × ℕ) :=
  balls.map (fun p => (p.1, p.2.length))

lemma updateOneBall_shape (cur_ball : KeyPoint) (balls : Keypoints) :
    shapeOf (updateOneBall cur_ball balls) = shapeOf balls := by
  induction balls with
  | nil => rfl
  | cons p rest ih =>
    obtain ⟨c, l⟩ := p
    unfold updateOneBall
    cases h : replaceFirstClose cur_ball l with
    | none => simpa [shapeOf] using ih
    | some l2 =>
      have hlen : l2.length = l.length := by
        rw [replaceFirstClose_eq] at h
        cases hj : firstCloseIdx cur_ball l with
        | none => rw [hj] at h; simp at h
        | some j =>
          rw [hj] at h
          simp at h
          subst h
          simp [List.length_set]
      simp [shapeOf, hlen]

/-- C6: for every input, `update_balls` never changes the shape of the
known mapping: the colour keys (in order) and the length of every colour's
ball list after the call are exactly what they were before it, so in
particular the total ball count never increases. -/
theorem C6_theorem (balls : Keypoints) (cur_balls : List KeyPoint) :
    shapeOf (update_balls balls cur_balls) = shapeOf balls := by
  unfold update_balls
  induction cur_balls generalizing balls with
  | nil => rfl
  | cons x xs ih => rw [List.foldl_cons, ih, updateOneBall_shape]

/-! ## C7, C8 — colour assignment -/

/-- The total number of assigned blobs across all colours of a mapping. -/
def totalCount (balls : Keypoints) : ℕ :=
  (balls.map (fun p => p.2.length)).sum

lemma appendBall_totalCount (colour : Colour) (kp : KeyPoint) (balls : Keypoints) :
    totalCount (appendBall colour kp balls) ≤ totalCount balls + 1 := by
  induction balls with
  | nil => simp [appendBall, totalCount]
  | cons p rest ih =>
    obtain ⟨c, l⟩ := p
    unfold appendBall
    by_cases h : c = colour
    · simp only [if_pos h, totalCount, List.map_cons, List.sum_cons,
        List.length_append, List.length_singleton]
      omega
    · simp only [if_neg h, totalCount, List.map_cons, List.sum_cons] at ih ⊢
      omega

lemma keypoint_is_ball_false (colour : Colour) (cc : List Contour)
    (kp : KeyPoint) (balls : Keypoints) (b : Bool)
    (h : (keypoint_is_ball colour cc kp balls b).1 = false) :
    (keypoint_is_ball colour cc kp balls b).2 = balls := by
  unfold keypoint_is_ball at h ⊢
  by_cases hg : 1 < cc.length ∧ b = true
  · rw [if_pos hg] at h ⊢
    cases cc with
    | nil => rfl
    | cons c rest =>
      dsimp only at h ⊢
      by_cases hin : keypoint_in_contour kp (maxAreaContour c rest) = true
      · rw [if_pos hin] at h
        simp at h
      · rw [if_neg hin] at h ⊢
  · rw [if_neg hg] at h ⊢
    by_cases hin : cc.any (fun contour => keypoint_in_contour kp contour) = true
    · rw [if_pos hin] at h
      simp at h
    · rw [if_neg hin]

lemma keypoint_is_ball_totalCount (colour : Colour) (cc : List Contour)
    (kp : KeyPoint) (balls : Keypoints) (b : Bool) :
    totalCount (keypoint_is_ball colour cc kp balls b).2 ≤ totalCount balls + 1 := by
  unfold keypoint_is_ball
  by_cases hg : 1 < cc.length ∧ b = true
  · rw [if_pos hg]
    cases cc with
    | nil => exact Nat.le_succ_of_le le_rfl
    | cons c rest =>
      dsimp only
      by_cases hin : keypoint_in_contour kp (maxAreaContour c rest) = true
      · rw [if_pos hin]
        exact appendBall_totalCount colour kp balls
      · rw [if_neg hin]
        exact Nat.le_succ_of_le le_rfl
  · rw [if_neg hg]
    by_cases hin : cc.any (fun contour => keypoint_in_contour kp contour) = true
    · rw [if_pos hin]
      exact appendBall_totalCount colour kp balls
    · rw [if_neg hin]
      exact Nat.le_succ_of_le le_rfl

lemma assignKeypoint_totalCount (detect : Colour → Bool)
    (colour_contours : Colour → List Contour) (kp : KeyPoint) :
    ∀ (order : List Colour) (balls : Keypoints),
      totalCount (assignKeypoint detect colour_contours kp order balls) ≤
        totalCount balls + 1 := by
  intro order
  induction order with
  | nil =>
    intro balls
    exact Nat.le_succ_of_le le_rfl
  | cons colour rest ih =>
    intro balls
    unfold assignKeypoint
    by_cases hd : detect colour = true
    · rw [if_pos hd]
      by_cases h1 : (keypoint_is_ball colour (colour_contours colour) kp balls false).1 = true
      · rw [if_pos h1]
        exact keypoint_is_ball_totalCount colour (colour_contours colour) kp balls false
      · rw [if_neg h1]
        rw [keypoint_is_ball_false colour (colour_contours colour) kp balls false
          (Bool.not_eq_true _ ▸ h1)]
        exact ih balls
    · rw [if_neg hd]
      exact ih balls

lemma foldl_assign_totalCount (detect : Colour → Bool)
    (colour_contours : Colour → List Contour) (order : List Colour) :
    ∀ (kps : List KeyPoint) (balls : Keypoints),
      totalCount (kps.foldl
        (fun b kp => assignKeypoint detect colour_contours kp order b) balls) ≤
        totalCount balls + kps.length := by
  intro kps
  induction kps with
  | nil =>
    intro balls
    simp
  | cons kp rest ih =>
    intro balls
    rw [List.foldl_cons, List.length_cons]
    have h1 := ih (assignKeypoint detect colour_contours kp order balls)
    have h2 := assignKeypoint_totalCount detect colour_contours kp order balls
    omega

lemma totalCount_emptyBalls : totalCount emptyBalls = 0 := rfl

/-- C7: in `perform_colour_detection`, every detected blob is appended to
at most one colour's list (each per-blob colour scan adds at most one ball
to the whole mapping, and it stops at the first colour whose region
contains the blob), so the total number of assigned blobs across all
colours never exceeds the number of input blobs. -/
theorem C7_theorem (cfg : ColourDetectionConfig) (keypoints : List KeyPoint) :
    totalCount (perform_colour_detection cfg keypoints) ≤ keypoints.length ∧
    ∀ (detect : Colour → Bool) (colour_contours : Colour → List Contour)
      (kp : KeyPoint) (order : List Colour) (balls : Keypoints),
      totalCount (assignKeypoint detect colour_contours kp order balls) ≤
        totalCount balls + 1 := by
  constructor
  · unfold perform_colour_detection
    have h := foldl_assign_totalCount cfg.detect
      (fun colour => if cfg.detect colour then cfg.contoursFor colour else [])
      cfg.order keypoints emptyBalls
    rw [totalCount_emptyBalls] at h
    simpa using h
  · intro detect colour_contours kp order balls
    exact assignKeypoint_totalCount detect colour_contours kp order balls

lemma maxAreaContour_mem (c : Contour) (rest : List Contour) :
    maxAreaContour c rest ∈ c :: rest := by
  induction rest generalizing c with
  | nil => simp [maxAreaContour]
  | cons x xs ih =>
    unfold maxAreaContour
    simp only [List.foldl_cons]
    by_cases hc : c.area < x.area
    · rw [if_pos hc]
      have h := ih x
      unfold maxAreaContour at h
      exact List.mem_cons_of_mem c h
    · rw [if_neg hc]
      have h := ih c
      unfold maxAreaContour at h
      rcases List.mem_cons.mp h with h1 | h1
      · rw [h1]
        exact List.mem_cons_self c (x :: xs)
      · exact List.mem_cons_of_mem c (List.mem_cons_of_mem x h1)

lemma keypoint_is_ball_not_inside (colour : Colour) (cc : List Contour)
    (kp : KeyPoint) (balls : Keypoints) (b : Bool)
    (h : ∀ contour ∈ cc, contour.test kp.pt ≠ 1) :
    keypoint_is_ball colour cc kp balls b = (false, balls) := by
  have hkic : ∀ contour ∈ cc, keypoint_in_contour kp contour = false := by
    intro ct hct
    unfold keypoint_in_contour
    rw [if_neg (h ct hct)]
  unfold keypoint_is_ball
  by_cases hg : 1 < cc.length ∧ b = true
  · rw [if_pos hg]
    cases cc with
    | nil => rfl
    | cons c rest =>
      dsimp only
      rw [hkic _ (maxAreaContour_mem c rest)]
      simp
  · rw [if_neg hg]
    have hany : cc.any (fun contour => keypoint_in_contour kp contour) = false := by
      rw [List.any_eq_false]
      intro ct hct
      simp [hkic ct hct]
    rw [hany]
    simp

/-- C8: the containment test used by colour assignment has strict-interior
semantics: `__keypoint_in_contour` accepts a keypoint exactly when the
point-in-polygon test reports it strictly inside (value 1), and a keypoint
for which no contour of a colour reports strictly-inside — in particular
one lying exactly on a boundary (value 0) or outside (value -1) — is never
appended to that colour's list by `__keypoint_is_ball`. -/
theorem C8_theorem :
    (∀ (kp : KeyPoint) (contour : Contour),
      keypoint_in_contour kp contour = true ↔ contour.test kp.pt = 1) ∧
    (∀ (colour : Colour) (cc : List Contour) (kp : KeyPoint)
      (balls : Keypoints) (b : Bool),
      (∀ contour ∈ cc, contour.test kp.pt ≠ 1) →
      keypoint_is_ball colour cc kp balls b = (false, balls)) := by
  constructor
  · intro kp contour
    by_cases h : contour.test kp.pt = 1 <;> simp [keypoint_in_contour, h]
  · intro colour cc kp balls b h
    exact keypoint_is_ball_not_inside colour cc kp balls b h

/-- A contour whose point-in-polygon oracle reports every point as lying
exactly on the boundary. -/
def boundaryContour : Contour := ⟨fun _ => 0, 0⟩

/-- C8 (witness): a keypoint on the boundary of a colour's only contour is
not assigned to that colour. -/
theorem C8_witness :
    keypoint_is_ball Colour.RED [boundaryContour] kpA emptyBalls false =
      (false, emptyBalls) :=
  C8_theorem.2 Colour.RED [boundaryContour] kpA emptyBalls false
    (by
      intro ct hct
      rw [List.mem_singleton] at hct
      subst hct
      decide)

/-! ## C4, C9, C10 — the per-frame step and pot reporting -/

/-- The colours whose ball count decreased from `last_shot` to `temp`, the
white excluded, in enumeration order of `last_shot`'s colours. -/
def potCandidates (last_shot temp : SnapShot) : List Colour :=
  colourList.filter
    (fun c => decide (c ≠ Colour.WHITE ∧ 0 < last_shot.compare_ball_diff c temp))

lemma potFoldl (last_shot temp : SnapShot) :
    ∀ (l : List Colour) (acc : Option Colour × ℤ),
      l.foldl
        (fun acc2 ball_colour =>
          let count := last_shot.compare_ball_diff ball_colour temp
          if ball_colour ≠ Colour.WHITE ∧ 0 < count then (some ball_colour, count)
          else acc2) acc =
      match (l.filter
          (fun c => decide (c ≠ Colour.WHITE ∧
            0 < last_shot.compare_ball_diff c temp))).getLast? with
      | some c => (some c, last_shot.compare_ball_diff c temp)
      | none => acc := by
  intro l
  induction l with
  | nil => intro acc; rfl
  | cons c l ih =>
    intro acc
    rw [List.foldl_cons]
    by_cases hp : c ≠ Colour.WHITE ∧ 0 < last_shot.compare_ball_diff c temp
    · rw [ih]
      have hfc : (c :: l).filter
          (fun c => decide (c ≠ Colour.WHITE ∧
            0 < last_shot.compare_ball_diff c temp)) =
          c :: l.filter (fun c => decide (c ≠ Colour.WHITE ∧
            0 < last_shot.compare_ball_diff c temp)) := by
        simp [List.filter_cons, hp]
      rw [hfc]
      cases hf : l.filter (fun c => decide (c ≠ Colour.WHITE ∧
          0 < last_shot.compare_ball_diff c temp)) with
      | nil => simp [hp]
      | cons y ys =>
        rw [List.getLast?_cons_cons]
        cases hz : (y :: ys).getLast? with
        | none => simp at hz
        | some z => rfl
    · rw [ih]
      have hfc : (c :: l).filter
          (fun c => decide (c ≠ Colour.WHITE ∧
            0 < last_shot.compare_ball_diff c temp)) =
          l.filter (fun c => decide (c ≠ Colour.WHITE ∧
            0 < last_shot.compare_ball_diff c temp)) := by
        simp [List.filter_cons, hp]
      rw [hfc]
      simp [hp]

lemma potLoop_eq (last_shot temp : SnapShot) :
    potLoop last_shot temp =
      match (potCandidates last_shot temp).getLast? with
      | some c => (some c, last_shot.compare_ball_diff c temp)
      | none => (none, 0) := by
  unfold potLoop potCandidates
  exact potFoldl last_shot temp colourList (none, 0)

/-- The temporary snapshot built on a sampling tick: the working ball set
is the result of full colour re-detection, and `temp` is rebuilt from it
(ball_tracker.py:169 and 207). -/
def tickTemp (cfg : ColourDetectionConfig) (blobs : List KeyPoint) : SnapShot :=
  snapshotFromKeypoints (perform_colour_detection cfg blobs)

/-- The current-shot snapshot a sampling tick compares against: freshly
assigned on the very first frame, the stored one otherwise
(ball_tracker.py:174-176). -/
def tickCur (cfg : ColourDetectionConfig) (st : TrackerState)
    (blobs : List KeyPoint) : SnapShot :=
  if st.image_counter = 0 then tickTemp cfg blobs else st.cur_shot

/-- The last-shot snapshot a sampling tick diffs against: freshly assigned
on the very first frame, the stored one otherwise. -/
def tickLast (cfg : ColourDetectionConfig) (st : TrackerState)
    (blobs : List KeyPoint) : SnapShot :=
  if st.image_counter = 0 then tickTemp cfg blobs else st.last_shot

/-- C4: on a sampling tick (frame counter a multiple of 5) with a shot in
progress and `has_shot_finished` true, `process_image` reports at most one
pot event: the returned potted colour is the last non-white colour, in
enumeration order of `last_shot`'s colours, whose ball count decreased from
`last_shot` to `temp`, with the returned count equal to that colour's
decrease; if no non-white colour's count decreased, it returns (`None`, 0). -/
theorem C4_theorem (cfg : ColourDetectionConfig) (st : TrackerState)
    (blobs : List KeyPoint)
    (h5 : st.image_counter % 5 = 0)
    (hshot : st.shot_in_progess = true)
    (hfin : has_shot_finished (tickTemp cfg blobs) (tickCur cfg st blobs) = true) :
    (process_image cfg st blobs).2 =
      match (potCandidates (tickLast cfg st blobs) (tickTemp cfg blobs)).getLast? with
      | some c =>
        (some c, (tickLast cfg st blobs).compare_ball_diff c (tickTemp cfg blobs))
      | none => (none, 0) := by
  have hguard : st.image_counter = 0 ∨ st.image_counter % 5 = 0 := Or.inr h5
  have hfin2 : has_shot_finished
      (snapshotFromKeypoints (perform_colour_detection cfg blobs))
      (if st.image_counter = 0 then
        snapshotFromKeypoints (perform_colour_detection cfg blobs)
      else st.cur_shot) = true := by
    simpa [tickTemp, tickCur] using hfin
  simp only [process_image, if_pos hguard, hshot, if_true, hfin2, Bool.and_true,
    Bool.true_and, Bool.and_self]
  rw [potLoop_eq]
  simp [tickLast, tickTemp, tickCur]

/-- A contour whose point-in-polygon oracle reports every point strictly
inside. -/
def insideContour : Contour := ⟨fun _ => 1, 0⟩

/-- A concrete configuration: colours in enumeration order, only the white
colour detected, with one all-inside contour for it. -/
def cfgW : ColourDetectionConfig :=
  ⟨colourList, fun c => decide (c = Colour.WHITE),
   fun c => if c = Colour.WHITE then [insideContour] else []⟩

/-- A last-shot snapshot with one red ball at `kpB` and one white at `kpA`. -/
def snapLastW : SnapShot :=
  ⟨fun c => if c = Colour.RED then ⟨1, [kpB]⟩
    else if c = Colour.WHITE then ⟨1, [kpA]⟩ else emptyInfo,
   some ⟨kpA, false⟩⟩

/-- A concrete tracker state at frame counter 5 with a shot in progress,
whose current-shot snapshot has white count 1 but no white reference. -/
def stW5 : TrackerState :=
  ⟨emptyBalls, snapLastW, snapCountNoRef, snapNoWhite, true, 5⟩

/-- C4 (witness): at the concrete sampling tick `stW5` the shot finishes
(equal white counts, missing white reference) and the one red ball missing
from `temp` relative to `last_shot` is reported as (`RED`, 1). -/
theorem C4_witness : (process_image cfgW stW5 [kpA]).2 = (some Colour.RED, 1) := by
  have h := C4_theorem cfgW stW5 [kpA] (by decide) rfl (by decide)
  rw [h]
  decide

/-- C9: the frame counter increments by one on every call; calls whose
zero-based counter is a multiple of 5 run the full colour re-detection
(wholesale replacing the working ball set) and rebuild the temporary
snapshot from it; every other call only repositions the existing balls via
`update_balls` and leaves the three snapshots and the shot flag untouched
(no snapshot comparison happens). -/
theorem C9_theorem (cfg : ColourDetectionConfig) (st : TrackerState)
    (blobs : List KeyPoint) :
    (process_image cfg st blobs).1.image_counter = st.image_counter + 1 ∧
    (st.image_counter % 5 = 0 →
      (process_image cfg st blobs).1.keypoints = perform_colour_detection cfg blobs ∧
      (process_image cfg st blobs).1.temp = tickTemp cfg blobs) ∧
    (st.image_counter % 5 ≠ 0 →
      (process_image cfg st blobs).1.keypoints = update_balls st.keypoints blobs ∧
      (process_image cfg st blobs).1.temp = st.temp ∧
      (process_image cfg st blobs).1.cur_shot = st.cur_shot ∧
      (process_image cfg st blobs).1.last_shot = st.last_shot ∧
      (process_image cfg st blobs).1.shot_in_progess = st.shot_in_progess) := by
  by_cases h5 : st.image_counter % 5 = 0
  · have hguard : st.image_counter = 0 ∨ st.image_counter % 5 = 0 := Or.inr h5
    refine ⟨?_, fun _ => ⟨?_, ?_⟩, fun hn => absurd h5 hn⟩ <;>
      simp [process_image, if_pos hguard, tickTemp]
  · have hguard : ¬(st.image_counter = 0 ∨ st.image_counter % 5 = 0) := by
      rintro (h0 | h0)
      · exact h5 (by rw [h0])
      · exact h5 h0
    refine ⟨?_, fun hs => absurd hs h5, fun _ => ?_⟩ <;>
      simp [process_image, if_neg hguard]

/-- A concrete idle tracker state at frame counter 0. -/
def stW0 : TrackerState :=
  ⟨emptyBalls, snapNoWhite, snapNoWhite, snapNoWhite, false, 0⟩

/-- A concrete idle tracker state at frame counter 1. -/
def stW1 : TrackerState :=
  ⟨emptyBalls, snapNoWhite, snapNoWhite, snapNoWhite, false, 1⟩

/-- C9 (witness): the counter increments at a concrete state; a sampling
call (counter 0) re-detects, and a non-sampling call (counter 1) leaves
the temporary snapshot untouched. -/
theorem C9_witness :
    (process_image cfgW stW1 []).1.image_counter = 2 ∧
    (process_image cfgW stW0 []).1.keypoints = perform_colour_detection cfgW [] ∧
    (process_image cfgW stW1 []).1.temp = stW1.temp :=
  ⟨(C9_theorem cfgW stW1 []).1,
   ((C9_theorem cfgW stW0 []).2.1 rfl).1,
   ((C9_theorem cfgW stW1 []).2.2 (by decide)).2.1⟩

/-- C10: on every call whose internal frame counter is not a multiple of 5,
`process_image` returns potted colour `None` and pot count 0, and the three
snapshots and the shot-in-progress flag are left unchanged. -/
theorem C10_theorem (cfg : ColourDetectionConfig) (st : TrackerState)
    (blobs : List KeyPoint) (h : st.image_counter % 5 ≠ 0) :
    (process_image cfg st blobs).2.1 = none ∧
    (process_image cfg st blobs).2.2 = 0 ∧
    (process_image cfg st blobs).1.last_shot = st.last_shot ∧
    (process_image cfg st blobs).1.cur_shot = st.cur_shot ∧
    (process_image cfg st blobs).1.temp = st.temp ∧
    (process_image cfg st blobs).1.shot_in_progess = st.shot_in_progess := by
  have hguard : ¬(st.image_counter = 0 ∨ st.image_counter % 5 = 0) := by
    rintro (h0 | h0)
    · exact h (by rw [h0])
    · exact h h0
  simp [process_image, if_neg hguard]

/-- C10 (witness): the non-sampling guarantees evaluated at a concrete
state with frame counter 1. -/
theorem C10_witness :
    (process_image cfgW stW1 []).2.1 = none ∧
    (process_image cfgW stW1 []).2.2 = 0 ∧
    (process_image cfgW stW1 []).1.last_shot = stW1.last_shot ∧
    (process_image cfgW stW1 []).1.cur_shot = stW1.cur_shot ∧
    (process_image cfgW stW1 []).1.temp = stW1.temp ∧
    (process_image cfgW stW1 []).1.shot_in_progess = stW1.shot_in_progess :=
  C10_theorem cfgW stW1 [] (by decide)

end SnookerBallTracker
